import Mathlib

/-!
Verification of the doctor-discovery view-model
(`src/components/DoctorDiscovery.tsx`).

The embedding models the pure logic of the component: the record store is a
`List Doctor`, the UI state is a `FilterState`, the URL query string is an
ordered association list of decoded key/value pairs, and the derived views
(`filteredDoctors`, `suggestions`) are pure functions, exactly as in the
source's `useMemo` computations.

JavaScript string operations are modelled on `List Char`:
`String.prototype.toLowerCase` as ASCII lowering (the record data is ASCII;
Unicode case folding is out of scope), `String.prototype.includes` as a
character-list substring test, `split(',')`/`join(',')` as character-level
splitting and joining, and `parseInt` as decimal parsing with leading
whitespace and an optional sign (the `0x` hex form never occurs in the
fee/experience data).
-/

/-- Model of `String.prototype.toLowerCase`, restricted to ASCII
(the only case folding the record data exercises). -/
def jsToLowerCase (s : String) : String :=
  String.mk (s.data.map Char.toLower)

/-- `sub` is a prefix of the second list (character-by-character). -/
def isPrefixChars : List Char → List Char → Bool
  | [], _ => true
  | _ :: _, [] => false
  | a :: as, b :: bs => a == b && isPrefixChars as bs

/-- `sub` occurs as a contiguous run inside the second list. -/
def hasSubChars (sub : List Char) : List Char → Bool
  | [] => isPrefixChars sub []
  | b :: bs => isPrefixChars sub (b :: bs) || hasSubChars sub bs

/-- Model of `s.includes(sub)` (JavaScript substring containment). -/
def jsIncludes (s sub : String) : Bool :=
  hasSubChars sub.data s.data

/-- Model of `value.split(',')` at the character level: splits on every
comma and keeps empty segments, so `splitComma [] = [[]]`, matching
`''.split(',') = ['']`. -/
def splitComma : List Char → List (List Char)
  | [] => [[]]
  | c :: rest =>
    if c = ',' then [] :: splitComma rest
    else
      match splitComma rest with
      | [] => [[c]]
      | g :: gs => (c :: g) :: gs

/-- Model of `value.split(',')` on strings. -/
def jsSplitComma (s : String) : List String :=
  (splitComma s.data).map String.mk

/-- Model of `array.join(',')` at the character level. -/
def joinComma : List (List Char) → List Char
  | [] => []
  | [g] => g
  | g :: g2 :: gs => g ++ ',' :: joinComma (g2 :: gs)

/-- Model of `array.join(',')` on strings. -/
def jsJoinComma (l : List String) : String :=
  String.mk (joinComma (l.map String.data))

/-- Longest leading run of decimal digits, as a number; `none` when the
run is empty (JavaScript `NaN`). -/
def parseDigits (cs : List Char) : Option Nat :=
  let ds := cs.takeWhile (fun c => c.isDigit)
  if ds = [] then none
  else some (ds.foldl (fun n c => 10 * n + (c.toNat - ('0').toNat)) 0)

/-- Model of JavaScript `parseInt(s)`: skip leading whitespace, read an
optional sign, then the longest run of decimal digits; `none` models `NaN`.
(The `0x` hex prefix form never occurs in the fee/experience data.) -/
def parseIntJS (s : String) : Option Int :=
  let cs := s.data.dropWhile (fun c => c = ' ' ∨ c = '\t' ∨ c = '\n' ∨ c = '\r')
  match cs with
  | '-' :: rest => (parseDigits rest).map (fun n => -(n : Int))
  | '+' :: rest => (parseDigits rest).map (fun n => (n : Int))
  | _ => (parseDigits cs).map (fun n => (n : Int))

/-- The integer a fee/experience string parses to. The source never defines
what its `parseInt`-based comparators do on unparsable strings (the spec
calls this out as undefined behaviour), so the model maps that case to `0`;
theorems about sorting carry parse-success hypotheses so this default is
never load-bearing. -/
def parseIntD (s : String) : Int :=
  (parseIntJS s).getD 0

/-- `interface Specialty { name: string }` -/
structure Specialty where
  name : String := ""
deriving DecidableEq, Repr

/-- `clinic.address` in the `Doctor` interface. -/
structure Address where
  locality : String := ""
  city : String := ""
  address_line1 : String := ""
  location : String := ""
  logo_url : String := ""
deriving DecidableEq, Repr

/-- `clinic` in the `Doctor` interface. -/
structure Clinic where
  name : String := ""
  address : Address := {}
deriving DecidableEq, Repr

/-- The `Doctor` interface of the source. Fields irrelevant to a given
test default to the empty value so concrete records stay short. -/
structure Doctor where
  id : String := ""
  name : String := ""
  name_initials : String := ""
  photo : String := ""
  doctor_introduction : String := ""
  specialities : List Specialty := []
  fees : String := ""
  experience : String := ""
  languages : List String := []
  clinic : Clinic := {}
  video_consult : Bool := false
  in_clinic : Bool := false
deriving DecidableEq, Repr

/-- The `DoctorSuggestion` interface of the source. -/
structure DoctorSuggestion where
  id : String := ""
  name : String := ""
  specialities : List Specialty := []
  photo : String := ""
deriving DecidableEq, Repr

/-- The component's filter/sort state. `consultationType` and `sortBy` are
strings, as at runtime: the TypeScript casts `as 'video' | 'clinic'` and
`as 'fees' | 'experience'` applied during hydration have no runtime effect,
so any string read from the URL is stored verbatim. The empty string is the
unset default for each. -/
structure FilterState where
  nameFilter : String := ""
  consultationType : String := ""
  selectedSpecialties : List String := []
  sortBy : String := ""
deriving DecidableEq, Repr

/-- Spec §4.2 `matchesName`: case-insensitive substring test of the query
against the record's name; the source inlines this as
`doctor.name.toLowerCase().includes(nameFilter.toLowerCase())`. -/
def matchesName (d : Doctor) (q : String) : Bool :=
  jsIncludes (jsToLowerCase d.name) (jsToLowerCase q)

/-- Spec §4.2 `matchesConsultationType`: `video` requires `video_consult`,
`clinic` requires `in_clinic`, anything else matches everything — the
branch structure of the source's consultation-type stage. -/
def matchesConsultationType (d : Doctor) (t : String) : Bool :=
  if t = "video" then d.video_consult
  else if t = "clinic" then d.in_clinic
  else true

/-- Spec §4.2 `matchesSpecialties`: an empty selection matches everything,
otherwise the record needs some specialty whose name is selected — the
predicate of the source's specialty stage. -/
def matchesSpecialties (d : Doctor) (sel : List String) : Bool :=
  if sel.isEmpty then true
  else d.specialities.any (fun s => sel.contains s.name)

/-- The conjunction of the three filter predicates (spec §4.3: the reduced
view is the store filtered by the AND of the active predicates). -/
def activeFilters (fs : FilterState) (d : Doctor) : Bool :=
  matchesName d fs.nameFilter &&
    (matchesConsultationType d fs.consultationType &&
      matchesSpecialties d fs.selectedSpecialties)

/-- The `filteredDoctors` memo of the source: the four stages (name filter,
consultation-type filter, specialty filter, optional sort) in source order.
JavaScript truthiness: a string is truthy iff non-empty, a number iff
non-zero. `Array.prototype.sort` is required to be stable by ECMAScript, so
for the consistent integer-difference comparators of the source its result
is the unique stable sorted permutation, modelled by `List.insertionSort`
on the comparator `parseInt(x) - parseInt(y) <= 0`. -/
def filteredDoctors (doctors : List Doctor) (fs : FilterState) : List Doctor :=
  let result := doctors
  let result :=
    if fs.nameFilter ≠ "" then
      result.filter (fun d => jsIncludes (jsToLowerCase d.name) (jsToLowerCase fs.nameFilter))
    else result
  let result :=
    if fs.consultationType = "video" then
      result.filter (fun d => d.video_consult)
    else if fs.consultationType = "clinic" then
      result.filter (fun d => d.in_clinic)
    else result
  let result :=
    if 0 < fs.selectedSpecialties.length then
      result.filter (fun d => d.specialities.any (fun s => fs.selectedSpecialties.contains s.name))
    else result
  if fs.sortBy = "fees" then
    List.insertionSort (fun a b => parseIntD a.fees ≤ parseIntD b.fees) result
  else if fs.sortBy = "experience" then
    List.insertionSort (fun a b => parseIntD b.experience ≤ parseIntD a.experience) result
  else result

/-- The `filteredDoctors` pipeline with the specialty stage removed
(spec §8: the view that applies no specialty filter at all). -/
def filteredDoctorsNoSpecialtyStage (doctors : List Doctor) (fs : FilterState) : List Doctor :=
  let result := doctors
  let result :=
    if fs.nameFilter ≠ "" then
      result.filter (fun d => jsIncludes (jsToLowerCase d.name) (jsToLowerCase fs.nameFilter))
    else result
  let result :=
    if fs.consultationType = "video" then
      result.filter (fun d => d.video_consult)
    else if fs.consultationType = "clinic" then
      result.filter (fun d => d.in_clinic)
    else result
  if fs.sortBy = "fees" then
    List.insertionSort (fun a b => parseIntD a.fees ≤ parseIntD b.fees) result
  else if fs.sortBy = "experience" then
    List.insertionSort (fun a b => parseIntD b.experience ≤ parseIntD a.experience) result
  else result

/-- The projection the source's `suggestions` memo maps each matching
doctor through. -/
def toSuggestion (d : Doctor) : DoctorSuggestion :=
  { id := d.id, name := d.name, specialities := d.specialities, photo := d.photo }

/-- The `suggestions` memo of the source: empty when nothing is typed,
otherwise the doctors matching the query by name OR by some specialty name
(both case-insensitive substring tests), projected to suggestions and cut
to the first five (`slice(0, 5)`). -/
def suggestions (doctors : List Doctor) (nameFilter : String) : List DoctorSuggestion :=
  if nameFilter = "" then []
  else
    (((doctors.filter (fun d =>
        jsIncludes (jsToLowerCase d.name) (jsToLowerCase nameFilter) ||
          d.specialities.any (fun s =>
            jsIncludes (jsToLowerCase s.name) (jsToLowerCase nameFilter)))).map
      toSuggestion).take 5)

/-- `searchParams.get(key)`: first value bound to `key`, `none` when the
parameter is absent. The query string is modelled as the ordered list of
decoded key/value pairs. -/
def getParam (ps : List (String × String)) (key : String) : Option String :=
  (ps.find? (fun p => p.1 == key)).map (fun p => p.2)

/-- Hydration (source lines 90–99): seed each `FilterState` field from the
query string. `get(k) || ''` keeps a present value and defaults an absent
one to the empty string; `get('specialties')?.split(',') || []` splits a
present value (a split result is never falsy, so the `[]` fallback fires
only when the parameter is absent). -/
def hydrate (ps : List (String × String)) : FilterState :=
  { nameFilter := (getParam ps "name").getD ""
    consultationType := (getParam ps "consultationType").getD ""
    selectedSpecialties :=
      match getParam ps "specialties" with
      | none => []
      | some v => jsSplitComma v
    sortBy := (getParam ps "sortBy").getD "" }

/-- Persistence (source lines 113–120): build a fresh `URLSearchParams`,
setting each parameter only when its field is truthy (non-empty string,
non-zero length), in source order. -/
def persist (fs : FilterState) : List (String × String) :=
  (if fs.nameFilter ≠ "" then [("name", fs.nameFilter)] else []) ++
    (if fs.consultationType ≠ "" then [("consultationType", fs.consultationType)] else []) ++
    (if 0 < fs.selectedSpecialties.length then
      [("specialties", jsJoinComma fs.selectedSpecialties)]
    else []) ++
    (if fs.sortBy ≠ "" then [("sortBy", fs.sortBy)] else [])

/-- The specialty chip's `onClick` (source lines 349–355): remove the
specialty when selected, append it when not. -/
def toggleSpecialty (selectedSpecialties : List String) (specialty : String) : List String :=
  if selectedSpecialties.contains specialty then
    selectedSpecialties.filter (fun s => s != specialty)
  else
    selectedSpecialties ++ [specialty]

/-- A concrete record used to instantiate theorems with hypotheses. -/
def wDoc1 : Doctor :=
  { id := "1", name := "Dr. Alice", fees := "500", experience := "5",
    video_consult := true, specialities := [{ name := "Cardiology" }] }

/-- A second concrete record used to instantiate theorems with hypotheses. -/
def wDoc2 : Doctor :=
  { id := "2", name := "Dr. Bob", fees := "200", experience := "20",
    in_clinic := true, specialities := [{ name := "Dermatology" }] }

/-- A record whose only specialty is literally named the empty string. -/
def wDocEmptySpec : Doctor :=
  { id := "3", name := "Dr. Eve", specialities := [{ name := "" }] }

/-- A two-record concrete store used to instantiate theorems. -/
def wStore : List Doctor := [wDoc1, wDoc2]

/-- A state whose `consultationType` and `sortBy` hold strings outside the
closed enumerations, as hydration can produce. -/
def wJunkFS : FilterState := { consultationType := "banana", sortBy := "banana" }

/-- A concrete state with every field non-default and comma-free. -/
def wFullFS : FilterState :=
  { nameFilter := "ali", consultationType := "video",
    selectedSpecialties := ["Cardiology"], sortBy := "fees" }

example : jsIncludes "Dr. Alice" "lic" = true := by decide
example : jsIncludes "Dr. Alice" "" = true := by decide
example : jsSplitComma "" = [""] := by decide
example : jsSplitComma "a,b" = ["a", "b"] := by decide
example : jsJoinComma ["a", "b"] = "a,b" := by decide
example : parseIntJS "500" = some 500 := by decide
example : parseIntJS "abc" = none := by decide
example : jsToLowerCase "Dr. X" = "dr. x" := by decide
example :
    filteredDoctors [{ fees := "500" }, { fees := "200" }, { fees := "800" }]
      { sortBy := "fees" } =
      [{ fees := "200" }, { fees := "500" }, { fees := "800" }] := by decide
example : hydrate [("specialties", "")] = { selectedSpecialties := [""] } := by decide
example :
    hydrate (persist { selectedSpecialties := ["a,b"] }) =
      { selectedSpecialties := ["a", "b"] } := by decide
example : (hydrate [("consultationType", "banana")]).consultationType = "banana" := by decide
example :
    suggestions [{ name := "Amy" }, { name := "Bob", specialities := [{ name := "Cardio" }] }]
      "car" = [{ id := "", name := "Bob", specialities := [{ name := "Cardio" }], photo := "" }] := by
  decide

/-! ### Basic lemmas about the string primitives -/

theorem isPrefixChars_nil_left (l : List Char) : isPrefixChars [] l = true := rfl

theorem hasSubChars_nil_left (l : List Char) : hasSubChars [] l = true := by
  induction l with
  | nil => rfl
  | cons c cs ih => simp [hasSubChars, isPrefixChars_nil_left, ih]

/-- The empty string is a substring of every string. -/
theorem jsIncludes_empty_right (s : String) : jsIncludes s "" = true := by
  unfold jsIncludes
  have h : ("" : String).data = [] := by decide
  rw [h]
  exact hasSubChars_nil_left _

theorem matchesName_empty (d : Doctor) : matchesName d "" = true := by
  unfold matchesName
  have h : jsToLowerCase "" = "" := by decide
  rw [h]
  exact jsIncludes_empty_right _

theorem matchesConsultationType_empty (d : Doctor) : matchesConsultationType d "" = true := by
  unfold matchesConsultationType
  rw [if_neg (by decide), if_neg (by decide)]

theorem String.mk_data_eq (s : String) : String.mk s.data = s := by
  cases s
  rfl

/-! ### Split/join round trip -/

theorem splitComma_no_comma (g : List Char) (hg : ',' ∉ g) : splitComma g = [g] := by
  induction g with
  | nil => rfl
  | cons c cs ih =>
    have hc : ¬(c = ',') := fun h => hg (h ▸ List.mem_cons_self c cs)
    have hcs : ',' ∉ cs := fun h => hg (List.mem_cons_of_mem c h)
    rw [splitComma, if_neg hc, ih hcs]

theorem splitComma_append_comma (g t : List Char) (hg : ',' ∉ g) :
    splitComma (g ++ ',' :: t) = g :: splitComma t := by
  induction g with
  | nil => simp [splitComma]
  | cons c cs ih =>
    have hc : ¬(c = ',') := fun h => hg (h ▸ List.mem_cons_self c cs)
    have hcs : ',' ∉ cs := fun h => hg (List.mem_cons_of_mem c h)
    rw [List.cons_append, splitComma, if_neg hc, ih hcs]

theorem splitComma_joinComma (l : List (List Char)) (hne : l ≠ [])
    (h : ∀ g ∈ l, ',' ∉ g) : splitComma (joinComma l) = l := by
  induction l with
  | nil => exact absurd rfl hne
  | cons g gs ih =>
    cases gs with
    | nil => exact splitComma_no_comma g (h g (List.mem_cons_self g []))
    | cons g2 gs2 =>
      have hgs : g2 :: gs2 ≠ [] := by simp
      rw [joinComma, splitComma_append_comma g _ (h g (List.mem_cons_self g _)),
        ih hgs (fun x hx => h x (List.mem_cons_of_mem g hx))]

/-- `split(',')` undoes `join(',')` on a non-empty list of comma-free names. -/
theorem jsSplitComma_jsJoinComma (sl : List String) (hne : sl ≠ [])
    (h : ∀ s ∈ sl, ',' ∉ s.data) : jsSplitComma (jsJoinComma sl) = sl := by
  unfold jsSplitComma jsJoinComma
  have hdata : (String.mk (joinComma (sl.map String.data))).data
      = joinComma (sl.map String.data) := rfl
  rw [hdata, splitComma_joinComma _ (by simpa using hne)
    (by
      intro g hg
      obtain ⟨s, hs, rfl⟩ := List.mem_map.mp hg
      exact h s hs)]
  rw [List.map_map]
  conv_rhs => rw [← List.map_id sl]
  exact List.map_congr_left (fun s _ => String.mk_data_eq s)

/-! ### The filter pipeline as a single filter -/

theorem stage_name_eq (l : List Doctor) (q : String) :
    (if q ≠ "" then
      l.filter (fun d => jsIncludes (jsToLowerCase d.name) (jsToLowerCase q))
    else l) = l.filter (fun d => matchesName d q) := by
  by_cases hq : q = ""
  · rw [if_neg (fun hh => hh hq)]
    refine (List.filter_eq_self.mpr ?_).symm
    intro d _
    rw [hq]
    exact matchesName_empty d
  · rw [if_pos hq]
    rfl

theorem stage_consultation_eq (l : List Doctor) (t : String) :
    (if t = "video" then l.filter (fun d => d.video_consult)
    else if t = "clinic" then l.filter (fun d => d.in_clinic)
    else l) = l.filter (fun d => matchesConsultationType d t) := by
  unfold matchesConsultationType
  by_cases hv : t = "video"
  · simp [hv]
  · by_cases hc : t = "clinic"
    · simp [hv, hc]
    · rw [if_neg hv, if_neg hc]
      refine (List.filter_eq_self.mpr ?_).symm
      intro d _
      rw [if_neg hv, if_neg hc]

theorem stage_specialties_eq (l : List Doctor) (sel : List String) :
    (if 0 < sel.length then
      l.filter (fun d => d.specialities.any (fun s => sel.contains s.name))
    else l) = l.filter (fun d => matchesSpecialties d sel) := by
  unfold matchesSpecialties
  by_cases hs : sel = []
  · subst hs
    simp
  · rw [if_pos (List.length_pos.mpr hs)]
    refine List.filter_congr ?_
    intro d _
    rw [if_neg (by simpa [List.isEmpty_iff] using hs)]

/-- The source's four-stage pipeline, rewritten as one filter by the
predicate conjunction followed by the optional sort. -/
theorem filteredDoctors_eq (ds : List Doctor) (fs : FilterState) :
    filteredDoctors ds fs =
      if fs.sortBy = "fees" then
        List.insertionSort (fun a b => parseIntD a.fees ≤ parseIntD b.fees)
          (ds.filter (activeFilters fs))
      else if fs.sortBy = "experience" then
        List.insertionSort (fun a b => parseIntD b.experience ≤ parseIntD a.experience)
          (ds.filter (activeFilters fs))
      else ds.filter (activeFilters fs) := by
  unfold filteredDoctors
  dsimp only
  rw [stage_name_eq, stage_consultation_eq, stage_specialties_eq,
    List.filter_filter, List.filter_filter]
  have hpred : (fun d =>
      matchesSpecialties d fs.selectedSpecialties &&
        matchesConsultationType d fs.consultationType && matchesName d fs.nameFilter) =
      activeFilters fs := by
    funext d
    simp [activeFilters, Bool.and_comm, Bool.and_left_comm, Bool.and_assoc]
  rw [hpred]

/-- Membership in the reduced view is membership in the store plus the
predicate conjunction (sorting permutes but never adds or drops records). -/
theorem mem_filteredDoctors {ds : List Doctor} {fs : FilterState} {d : Doctor} :
    d ∈ filteredDoctors ds fs ↔ d ∈ ds ∧ activeFilters fs d = true := by
  rw [filteredDoctors_eq]
  split_ifs with h1 h2
  · rw [(List.perm_insertionSort _ _).mem_iff, List.mem_filter]
  · rw [(List.perm_insertionSort _ _).mem_iff, List.mem_filter]
  · rw [List.mem_filter]

/-- The pipeline without the specialty stage, as one filter. -/
theorem filteredDoctorsNoSpecialtyStage_eq (ds : List Doctor) (fs : FilterState) :
    filteredDoctorsNoSpecialtyStage ds fs =
      if fs.sortBy = "fees" then
        List.insertionSort (fun a b => parseIntD a.fees ≤ parseIntD b.fees)
          (ds.filter (fun d =>
            matchesConsultationType d fs.consultationType && matchesName d fs.nameFilter))
      else if fs.sortBy = "experience" then
        List.insertionSort (fun a b => parseIntD b.experience ≤ parseIntD a.experience)
          (ds.filter (fun d =>
            matchesConsultationType d fs.consultationType && matchesName d fs.nameFilter))
      else ds.filter (fun d =>
        matchesConsultationType d fs.consultationType && matchesName d fs.nameFilter) := by
  unfold filteredDoctorsNoSpecialtyStage
  dsimp only
  rw [stage_name_eq, stage_consultation_eq, List.filter_filter]

/-- The reduced view only depends on the selected specialties through their
membership test and through whether the selection is empty. -/
theorem filteredDoctors_congr_specialties (ds : List Doctor) (fs : FilterState)
    (a b : List String) (hmem : ∀ x, a.contains x = b.contains x)
    (hne : a = [] ↔ b = []) :
    filteredDoctors ds { fs with selectedSpecialties := a } =
      filteredDoctors ds { fs with selectedSpecialties := b } := by
  have hms : ∀ d, matchesSpecialties d a = matchesSpecialties d b := by
    intro d
    unfold matchesSpecialties
    by_cases ha : a = []
    · rw [if_pos (by simpa [List.isEmpty_iff] using ha),
        if_pos (by simpa [List.isEmpty_iff] using hne.mp ha)]
    · rw [if_neg (by simpa [List.isEmpty_iff] using ha),
        if_neg (by simpa [List.isEmpty_iff] using fun hb => ha (hne.mpr hb))]
      simp only [hmem]
  have hfa : activeFilters { fs with selectedSpecialties := a } =
      activeFilters { fs with selectedSpecialties := b } := by
    funext d
    unfold activeFilters
    dsimp only
    rw [hms d]
  rw [filteredDoctors_eq, filteredDoctors_eq]
  dsimp only
  rw [hfa]

/-! ### What persistence writes -/

theorem getParam_persist_name (fs : FilterState) :
    getParam (persist fs) "name" =
      if fs.nameFilter = "" then none else some fs.nameFilter := by
  by_cases h1 : fs.nameFilter = "" <;> by_cases h2 : fs.consultationType = "" <;>
    by_cases h3 : 0 < fs.selectedSpecialties.length <;> by_cases h4 : fs.sortBy = "" <;>
    simp [persist, getParam, h1, h2, h3, h4]

theorem getParam_persist_consultationType (fs : FilterState) :
    getParam (persist fs) "consultationType" =
      if fs.consultationType = "" then none else some fs.consultationType := by
  by_cases h1 : fs.nameFilter = "" <;> by_cases h2 : fs.consultationType = "" <;>
    by_cases h3 : 0 < fs.selectedSpecialties.length <;> by_cases h4 : fs.sortBy = "" <;>
    simp [persist, getParam, h1, h2, h3, h4]

theorem getParam_persist_specialties (fs : FilterState) :
    getParam (persist fs) "specialties" =
      if fs.selectedSpecialties = [] then none
      else some (jsJoinComma fs.selectedSpecialties) := by
  have hlen : (0 < fs.selectedSpecialties.length) ↔ fs.selectedSpecialties ≠ [] :=
    List.length_pos
  by_cases h1 : fs.nameFilter = "" <;> by_cases h2 : fs.consultationType = "" <;>
    by_cases h3 : fs.selectedSpecialties = [] <;> by_cases h4 : fs.sortBy = "" <;>
    simp [persist, getParam, h1, h2, h3, h4, hlen]

theorem getParam_persist_sortBy (fs : FilterState) :
    getParam (persist fs) "sortBy" =
      if fs.sortBy = "" then none else some fs.sortBy := by
  by_cases h1 : fs.nameFilter = "" <;> by_cases h2 : fs.consultationType = "" <;>
    by_cases h3 : 0 < fs.selectedSpecialties.length <;> by_cases h4 : fs.sortBy = "" <;>
    simp [persist, getParam, h1, h2, h3, h4]

theorem mem_ite_singleton {α : Type} {c : Prop} [Decidable c] {x y : α}
    (h : y ∈ (if c then [x] else ([] : List α))) : y = x := by
  split at h
  · simpa using h
  · simp at h

theorem persist_keys (fs : FilterState) :
    ∀ kv ∈ persist fs,
      kv.1 ∈ (["name", "consultationType", "specialties", "sortBy"] : List String) := by
  intro kv hkv
  unfold persist at hkv
  rw [List.mem_append, List.mem_append, List.mem_append] at hkv
  rcases hkv with ((h | h) | h) | h <;> rw [mem_ite_singleton h] <;> simp

/-! ### The claims -/

/-- C1: every record in the reduced view comes from the store and satisfies
the conjunction of the three filter predicates (name substring,
consultation type, specialty intersection); no record failing an active
predicate is included; and when the sort key is unset the view is exactly
the stable filter of the store, preserving original relative order. -/
theorem c1_reduced_view_conjunction_and_stable (ds : List Doctor) (fs : FilterState) :
    (∀ d ∈ filteredDoctors ds fs, d ∈ ds ∧ activeFilters fs d = true) ∧
    (fs.sortBy = "" → filteredDoctors ds fs = ds.filter (activeFilters fs)) := by
  constructor
  · intro d hd
    exact mem_filteredDoctors.mp hd
  · intro h
    rw [filteredDoctors_eq, h, if_neg (by decide), if_neg (by decide)]

/-- Witness for C1 at a concrete store and the default filter state. -/
theorem c1_witness :
    (wDoc1 ∈ wStore ∧ activeFilters {} wDoc1 = true) ∧
    filteredDoctors wStore {} = wStore.filter (activeFilters {}) :=
  ⟨(c1_reduced_view_conjunction_and_stable wStore {}).1 wDoc1 (by decide),
    (c1_reduced_view_conjunction_and_stable wStore {}).2 rfl⟩

/-- C2: under `sortBy = "fees"` the reduced view is ordered by numerically
parsed fee ascending, under `sortBy = "experience"` by numerically parsed
experience descending (stated under the hypothesis that every stored
fee/experience string parses, where the source's comparator is defined);
and the spec's concrete examples sort to 200, 500, 800 and 20, 5, 1. -/
theorem c2_sort_orders (ds : List Doctor) (fs : FilterState) :
    (fs.sortBy = "fees" → (∀ d ∈ ds, (parseIntJS d.fees).isSome = true) →
      List.Sorted (fun a b : Doctor => parseIntD a.fees ≤ parseIntD b.fees)
        (filteredDoctors ds fs)) ∧
    (fs.sortBy = "experience" → (∀ d ∈ ds, (parseIntJS d.experience).isSome = true) →
      List.Sorted (fun a b : Doctor => parseIntD b.experience ≤ parseIntD a.experience)
        (filteredDoctors ds fs)) ∧
    (filteredDoctors [{ fees := "500" }, { fees := "200" }, { fees := "800" }]
      { sortBy := "fees" }).map (fun d => d.fees) = ["200", "500", "800"] ∧
    (filteredDoctors [{ experience := "5" }, { experience := "20" }, { experience := "1" }]
      { sortBy := "experience" }).map (fun d => d.experience) = ["20", "5", "1"] := by
  refine ⟨?_, ?_, by decide, by decide⟩
  · intro h _
    rw [filteredDoctors_eq, h, if_pos rfl]
    haveI : IsTotal Doctor (fun a b => parseIntD a.fees ≤ parseIntD b.fees) :=
      ⟨fun a b => le_total _ _⟩
    haveI : IsTrans Doctor (fun a b => parseIntD a.fees ≤ parseIntD b.fees) :=
      ⟨fun a b c hab hbc => le_trans hab hbc⟩
    exact List.sorted_insertionSort _ _
  · intro h _
    rw [filteredDoctors_eq, h, if_neg (by decide), if_pos rfl]
    haveI : IsTotal Doctor (fun a b => parseIntD b.experience ≤ parseIntD a.experience) :=
      ⟨fun a b => le_total _ _⟩
    haveI : IsTrans Doctor (fun a b => parseIntD b.experience ≤ parseIntD a.experience) :=
      ⟨fun a b c hab hbc => le_trans hbc hab⟩
    exact List.sorted_insertionSort _ _

/-- Witness for C2 at a concrete store with parseable fees and experience. -/
theorem c2_witness :
    List.Sorted (fun a b : Doctor => parseIntD a.fees ≤ parseIntD b.fees)
      (filteredDoctors wStore { sortBy := "fees" }) ∧
    List.Sorted (fun a b : Doctor => parseIntD b.experience ≤ parseIntD a.experience)
      (filteredDoctors wStore { sortBy := "experience" }) :=
  ⟨(c2_sort_orders wStore { sortBy := "fees" }).1 rfl (by decide),
    (c2_sort_orders wStore { sortBy := "experience" }).2.1 rfl (by decide)⟩

/-- C3: the suggestion list is exactly the first at-most-five store records,
in store order, whose name or some specialty name contains the query
case-insensitively; its length never exceeds five; and an empty query
yields no suggestions. -/
theorem c3_suggestions_capped (ds : List Doctor) (q : String) :
    (suggestions ds q).length ≤ 5 ∧
    (q = "" → suggestions ds q = []) ∧
    (q ≠ "" → suggestions ds q =
      ((ds.filter (fun d => matchesName d q ||
        d.specialities.any (fun s =>
          jsIncludes (jsToLowerCase s.name) (jsToLowerCase q)))).take 5).map
        toSuggestion) := by
  refine ⟨?_, ?_, ?_⟩
  · unfold suggestions
    split
    · simp
    · rw [List.length_take]
      exact min_le_left _ _
  · intro h
    unfold suggestions
    rw [if_pos h]
  · intro h
    unfold suggestions matchesName
    rw [if_neg h, List.map_take]

/-- Witness for C3 at a concrete store with the queries `"car"` and `""`. -/
theorem c3_witness :
    (suggestions wStore "car").length ≤ 5 ∧
    suggestions wStore "" = [] ∧
    suggestions wStore "car" =
      ((wStore.filter (fun d => matchesName d "car" ||
        d.specialities.any (fun s =>
          jsIncludes (jsToLowerCase s.name) (jsToLowerCase "car")))).take 5).map
        toSuggestion :=
  ⟨(c3_suggestions_capped wStore "car").1,
    (c3_suggestions_capped wStore "").2.1 rfl,
    (c3_suggestions_capped wStore "car").2.2 (by decide)⟩

/-- C9: on an empty record store both derived views are empty, and both are
total functions, so no error is raised. -/
theorem c9_empty_store_empty_views (fs : FilterState) (q : String) :
    filteredDoctors [] fs = [] ∧ suggestions [] q = [] := by
  constructor
  · rw [filteredDoctors_eq]
    split_ifs <;> rfl
  · unfold suggestions
    split <;> rfl

/-- C7: each filter predicate at its default is an identity — the empty name
query matches every record, the unset consultation type matches every
record, and with an empty specialty selection the reduced view equals the
pipeline that applies no specialty filter at all. -/
theorem c7_default_predicates_identity (ds : List Doctor) (fs : FilterState) (d : Doctor) :
    matchesName d "" = true ∧
    matchesConsultationType d "" = true ∧
    (fs.selectedSpecialties = [] →
      filteredDoctors ds fs = filteredDoctorsNoSpecialtyStage ds fs) := by
  refine ⟨matchesName_empty d, matchesConsultationType_empty d, ?_⟩
  intro h
  rw [filteredDoctors_eq, filteredDoctorsNoSpecialtyStage_eq]
  have hf : ds.filter (activeFilters fs) = ds.filter (fun x =>
      matchesConsultationType x fs.consultationType && matchesName x fs.nameFilter) := by
    refine List.filter_congr ?_
    intro x _
    simp [activeFilters, h, matchesSpecialties, Bool.and_comm]
  rw [hf]

/-- Witness for C7 at a concrete store, record, and the default state. -/
theorem c7_witness :
    matchesName wDoc1 "" = true ∧
    matchesConsultationType wDoc1 "" = true ∧
    filteredDoctors wStore {} = filteredDoctorsNoSpecialtyStage wStore {} :=
  ⟨(c7_default_predicates_identity wStore {} wDoc1).1,
    (c7_default_predicates_identity wStore {} wDoc1).2.1,
    (c7_default_predicates_identity wStore {} wDoc1).2.2 rfl⟩

/-- C8: toggling the same specialty chip twice in succession returns the
filtered view to its pre-toggle result, whatever the store, the filter
state, and the specialty name. -/
theorem c8_toggle_twice_view_identity (ds : List Doctor) (fs : FilterState) (sp : String) :
    filteredDoctors ds
      { fs with selectedSpecialties :=
          toggleSpecialty (toggleSpecialty fs.selectedSpecialties sp) sp } =
      filteredDoctors ds fs := by
  set sel := fs.selectedSpecialties with hsel
  by_cases h : sel.contains sp = true
  · have hspmem : sp ∈ sel := List.elem_iff.mp h
    have h1 : toggleSpecialty sel sp = sel.filter (fun s => s != sp) := by
      unfold toggleSpecialty
      rw [if_pos h]
    have h2 : (sel.filter (fun s => s != sp)).contains sp = false := by
      simp [List.contains, List.elem_eq_mem, List.mem_filter]
    have h3 : toggleSpecialty (sel.filter (fun s => s != sp)) sp =
        sel.filter (fun s => s != sp) ++ [sp] := by
      unfold toggleSpecialty
      rw [h2]
      simp
    rw [h1, h3]
    refine filteredDoctors_congr_specialties ds fs _ sel ?_ ?_
    · intro x
      have hx : (x ∈ sel.filter (fun s => s != sp) ++ [sp]) ↔ x ∈ sel := by
        simp only [List.mem_append, List.mem_filter, List.mem_singleton, bne_iff_ne]
        constructor
        · rintro (⟨hmem, _⟩ | rfl)
          · exact hmem
          · exact hspmem
        · intro hmem
          by_cases hxsp : x = sp
          · exact Or.inr hxsp
          · exact Or.inl ⟨hmem, hxsp⟩
      simp only [List.contains, List.elem_eq_mem]
      rw [decide_eq_decide]
      exact hx
    · constructor
      · intro hh
        simp at hh
      · intro hh
        rw [hh] at hspmem
        exact absurd hspmem (List.not_mem_nil sp)
  · have hspmem : sp ∉ sel := fun hx => h (List.elem_iff.mpr hx)
    have h1 : toggleSpecialty sel sp = sel ++ [sp] := by
      unfold toggleSpecialty
      rw [if_neg h]
    have h2 : (sel ++ [sp]).contains sp = true := List.elem_iff.mpr (by simp)
    have hone : ([sp] : List String).filter (fun s => s != sp) = [] := by simp
    have hself : sel.filter (fun s => s != sp) = sel :=
      List.filter_eq_self.mpr
        (fun x hx => bne_iff_ne.mpr (fun e => hspmem (e ▸ hx)))
    have h3 : toggleSpecialty (sel ++ [sp]) sp = sel := by
      unfold toggleSpecialty
      rw [if_pos h2, List.filter_append, hone, hself, List.append_nil]
    rw [h1, h3, hsel]

/-- C4 counterexample: a selected specialty name containing a comma does not
survive the persist/hydrate round trip — `join(',')` then `split(',')`
cuts `"a,b"` into `"a"` and `"b"`. -/
theorem c4_counterexample :
    hydrate (persist { selectedSpecialties := ["a,b"] }) ≠
      ({ selectedSpecialties := ["a,b"] } : FilterState) := by decide

/-- C4 (amended): for every `FilterState` whose selected specialty names
contain no comma, persisting and then hydrating reproduces the state
exactly, with default fields normalized to absent parameters. -/
theorem c4_roundtrip_comma_free (fs : FilterState)
    (h : ∀ s ∈ fs.selectedSpecialties, ',' ∉ s.data) :
    hydrate (persist fs) = fs := by
  obtain ⟨n, ct, sel, sb⟩ := fs
  unfold hydrate
  rw [getParam_persist_name, getParam_persist_consultationType,
    getParam_persist_specialties, getParam_persist_sortBy]
  simp only [FilterState.mk.injEq]
  refine ⟨?_, ?_, ?_, ?_⟩
  · by_cases hn : n = "" <;> simp [hn]
  · by_cases hc : ct = "" <;> simp [hc]
  · by_cases hs : sel = []
    · simp [hs]
    · rw [if_neg hs]
      exact jsSplitComma_jsJoinComma sel hs h
  · by_cases hb : sb = "" <;> simp [hb]

/-- Witness for C4 at a concrete non-default, comma-free state. -/
theorem c4_witness : hydrate (persist wFullFS) = wFullFS :=
  c4_roundtrip_comma_free wFullFS (by decide)

/-- C5 counterexample: hydration does not map a malformed
`consultationType` to the default — the raw string is stored verbatim
(the TypeScript cast has no runtime effect). -/
theorem c5_counterexample :
    (hydrate [("consultationType", "banana")]).consultationType = "banana" ∧
    (hydrate [("sortBy", "banana")]).sortBy = "banana" ∧
    ("banana" : String) ≠ "" := by decide

/-- C5 (amended): hydration is total (no validation error), absent
parameters map to the defaults, and although a malformed value is stored
verbatim, the reduced view treats any `consultationType` outside
`{video, clinic}` and any `sortBy` outside `{fees, experience}` exactly as
unset. -/
theorem c5_malformed_values_act_as_unset (ps : List (String × String))
    (ds : List Doctor) (fs : FilterState) :
    (getParam ps "consultationType" = none → (hydrate ps).consultationType = "") ∧
    (getParam ps "sortBy" = none → (hydrate ps).sortBy = "") ∧
    (fs.consultationType ≠ "video" → fs.consultationType ≠ "clinic" →
      filteredDoctors ds fs = filteredDoctors ds { fs with consultationType := "" }) ∧
    (fs.sortBy ≠ "fees" → fs.sortBy ≠ "experience" →
      filteredDoctors ds fs = filteredDoctors ds { fs with sortBy := "" }) := by
  refine ⟨?_, ?_, ?_, ?_⟩
  · intro h
    unfold hydrate
    rw [h]
    rfl
  · intro h
    unfold hydrate
    rw [h]
    rfl
  · intro h1 h2
    rw [filteredDoctors_eq, filteredDoctors_eq]
    have hfa : activeFilters { fs with consultationType := "" } = activeFilters fs := by
      funext d
      unfold activeFilters
      dsimp only
      rw [matchesConsultationType_empty,
        show matchesConsultationType d fs.consultationType = true from by
          unfold matchesConsultationType
          rw [if_neg h1, if_neg h2]]
    rw [hfa]
  · intro h1 h2
    rw [filteredDoctors_eq, filteredDoctors_eq]
    dsimp only
    rw [if_neg h1, if_neg h2, if_neg (by decide), if_neg (by decide)]
    rfl

/-- Witness for C5 at a concrete query string, store, and junk-valued
state. -/
theorem c5_witness :
    (hydrate [("name", "x")]).consultationType = "" ∧
    (hydrate [("name", "x")]).sortBy = "" ∧
    filteredDoctors wStore wJunkFS =
      filteredDoctors wStore { wJunkFS with consultationType := "" } ∧
    filteredDoctors wStore wJunkFS =
      filteredDoctors wStore { wJunkFS with sortBy := "" } :=
  ⟨(c5_malformed_values_act_as_unset [("name", "x")] wStore wJunkFS).1 (by decide),
    (c5_malformed_values_act_as_unset [("name", "x")] wStore wJunkFS).2.1 (by decide),
    (c5_malformed_values_act_as_unset [("name", "x")] wStore wJunkFS).2.2.1
      (by decide) (by decide),
    (c5_malformed_values_act_as_unset [("name", "x")] wStore wJunkFS).2.2.2
      (by decide) (by decide)⟩

/-- C6: persistence writes exactly the non-default fields — each parameter
is present iff its field is non-default, carrying exactly the field's
value, and no other key ever appears. -/
theorem c6_persist_writes_nondefaults (fs : FilterState) :
    getParam (persist fs) "name" =
      (if fs.nameFilter = "" then none else some fs.nameFilter) ∧
    getParam (persist fs) "consultationType" =
      (if fs.consultationType = "" then none else some fs.consultationType) ∧
    getParam (persist fs) "specialties" =
      (if fs.selectedSpecialties = [] then none
      else some (jsJoinComma fs.selectedSpecialties)) ∧
    getParam (persist fs) "sortBy" =
      (if fs.sortBy = "" then none else some fs.sortBy) ∧
    ∀ kv ∈ persist fs,
      kv.1 ∈ (["name", "consultationType", "specialties", "sortBy"] : List String) :=
  ⟨getParam_persist_name fs, getParam_persist_consultationType fs,
    getParam_persist_specialties fs, getParam_persist_sortBy fs, persist_keys fs⟩

/-- Witness for C6 at a concrete state with two non-default fields. -/
theorem c6_witness :
    getParam (persist { nameFilter := "ali", selectedSpecialties := ["Cardiology"] })
      "specialties" = some (jsJoinComma ["Cardiology"]) ∧
    (("name", "ali") : String × String).1 ∈
      (["name", "consultationType", "specialties", "sortBy"] : List String) := by
  constructor
  · have h :=
      (c6_persist_writes_nondefaults
        { nameFilter := "ali", selectedSpecialties := ["Cardiology"] }).2.2.1
    simpa using h
  · exact (c6_persist_writes_nondefaults
      { nameFilter := "ali", selectedSpecialties := ["Cardiology"] }).2.2.2.2
      ("name", "ali") (by decide)

/-- C10: a `specialties` parameter holding the empty string hydrates to the
singleton selection containing the empty string (split keeps empty
segments), so the specialty filter is active and every record in the
reduced view has a specialty literally named the empty string. -/
theorem c10_empty_specialties_param (ps : List (String × String))
    (h : getParam ps "specialties" = some "") (ds : List Doctor) (d : Doctor) :
    (hydrate ps).selectedSpecialties = [""] ∧
    (d ∈ filteredDoctors ds (hydrate ps) →
      d.specialities.any (fun s => s.name == "") = true) := by
  have hsel : (hydrate ps).selectedSpecialties = [""] := by
    unfold hydrate
    dsimp only
    rw [h]
    decide
  refine ⟨hsel, ?_⟩
  intro hd
  have hact := (mem_filteredDoctors.mp hd).2
  unfold activeFilters at hact
  rw [hsel] at hact
  simp only [Bool.and_eq_true] at hact
  have hms := hact.2.2
  unfold matchesSpecialties at hms
  rw [if_neg (by decide)] at hms
  rw [List.any_eq_true] at hms
  obtain ⟨s, hs, hc⟩ := hms
  rw [List.any_eq_true]
  refine ⟨s, hs, ?_⟩
  have : s.name ∈ ([""] : List String) := List.elem_iff.mp hc
  rw [List.mem_singleton] at this
  exact beq_iff_eq.mpr this

/-- Witness for C10 at the concrete query string `specialties=` and a
record whose only specialty is named by the empty string. -/
theorem c10_witness :
    (hydrate [("specialties", "")]).selectedSpecialties = [""] ∧
    wDocEmptySpec.specialities.any (fun s => s.name == "") = true :=
  ⟨(c10_empty_specialties_param [("specialties", "")] (by decide) [wDocEmptySpec]
      wDocEmptySpec).1,
    (c10_empty_specialties_param [("specialties", "")] (by decide) [wDocEmptySpec]
      wDocEmptySpec).2 (by decide)⟩
